import Mathlib

namespace WorldConquest

/-- A grid cell, source shape { x, y }. -/
structure Pos where
  x : Int
  y : Int
deriving DecidableEq

/-- A heading, source shape { dx, dy }. -/
structure Dir where
  dx : Int
  dy : Int
deriving DecidableEq

/-- A food item, source shape { x, y, type }. -/
structure Food where
  x : Int
  y : Int
  type : String
deriving DecidableEq

/-- The `Player` interface of the source (humans and bots alike). -/
structure Player where
  id : String
  name : String
  snake : List Pos
  direction : Dir
  color : String
  score : Nat
  kills : Nat
  alive : Bool
  isBot : Bool
  spectating : Bool
deriving DecidableEq

/-- Socket emissions of the server, with the payload parts the claims need. -/
inductive GameEvent where
  | roomFull
  | gameJoined (playerId : String)
  | playerJoined (playerId : String)
  | playerLeft (id : String)
  | playerDied (playerId : String) (killer : Option String)
  | gameUpdate
deriving DecidableEq

/-- The `GameRoom` interface, plus the explicit randomness stream. -/
structure GameRoom where
  id : String
  players : List Player
  foods : List Food
  gameLoop : Bool
  gridSize : Int
  tileCount : Int
  botCounter : Nat
  maxPlayers : Nat
  rand : Nat → Pos
  rk : Nat

/-- The COLORS palette (20 entries). -/
def COLORS : List String :=
  ["#4CAF50", "#2196F3", "#FF9800", "#E91E63", "#9C27B0",
   "#00BCD4", "#FFEB3B", "#FF5722", "#795548", "#607D8B",
   "#8BC34A", "#FFC107", "#673AB7", "#3F51B5", "#009688",
   "#CDDC39", "#FF6F00", "#C2185B", "#7B1FA2", "#0097A7"]

/-- Source: `newHead.x < 0 || newHead.x >= tileCount || newHead.y < 0 || newHead.y >= tileCount`. -/
def outOfBounds (t : Int) (p : Pos) : Bool :=
  decide (p.x < 0) || decide (t ≤ p.x) || decide (p.y < 0) || decide (t ≤ p.y)

/-- Death assignment: `alive = false`, and `spectating = true` for humans. -/
def killPlayer (p : Player) : Player :=
  { p with alive := false, spectating := if p.isBot then p.spectating else true }

/-- State threaded through one `updateGame` tick. -/
structure TickState where
  players : List Player
  foods : List Food
  rk : Nat
  events : List GameEvent

/-- Predicate of the other-player collision loop:
`otherPlayer.id === player.id || !otherPlayer.alive` skips, otherwise the
segments are compared with the new head. -/
def hitsPlayer (pid : String) (h : Pos) (q : Player) : Bool :=
  decide (q.id ≠ pid) && q.alive && decide (h ∈ q.snake)

/-- Kill counting of the collision loop: `otherPlayer.kills++` fires once per
matching segment of each other alive player. -/
def bumpKills (pid : String) (h : Pos) (q : Player) : Player :=
  if q.id ≠ pid ∧ q.alive = true then
    { q with kills := q.kills + q.snake.countP (fun c => decide (c = h)) }
  else q

/-- Food consumption: replace the first food under the new head in place by a
fresh random cell with the same type (`room.foods[i] = {x: …, y: …, type: room.foods[i].type}`);
`none` when no food is hit. -/
def respawnFoods (rp : Pos) (h : Pos) : List Food → Option (List Food)
  | [] => none
  | f :: fs =>
    if h.x = f.x ∧ h.y = f.y then
      some ({ x := rp.x, y := rp.y, type := f.type } :: fs)
    else (respawnFoods rp h fs).map (fun fs2 => f :: fs2)

/-- The body of the per-player closure inside `updateGame`'s
`room.players.forEach`, acting on the player at position `i` of the current
(partially updated) list. -/
def movePlayerAt (t : Int) (rand : Nat → Pos) (s : TickState) (i : Nat) : TickState :=
  match s.players[i]? with
  | none => s
  | some p =>
    if p.alive = false then s
    else if p.direction.dx = 0 ∧ p.direction.dy = 0 then s
    else
      match p.snake with
      | [] => s
      | head :: _ =>
        let newHead : Pos := { x := head.x + p.direction.dx, y := head.y + p.direction.dy }
        if outOfBounds t newHead then
          { s with players := s.players.set i (killPlayer p),
                   events := s.events ++ [GameEvent.playerDied p.id none] }
        else if newHead ∈ p.snake.tail then
          { s with players := s.players.set i (killPlayer p),
                   events := s.events ++ [GameEvent.playerDied p.id none] }
        else
          let hitters := s.players.filter (hitsPlayer p.id newHead)
          if hitters.isEmpty then
            let grown := newHead :: p.snake
            match respawnFoods (rand s.rk) newHead s.foods with
            | some foods2 =>
              { s with players := s.players.set i { p with snake := grown, score := p.score + 1 },
                       foods := foods2, rk := s.rk + 1 }
            | none =>
              { s with players := s.players.set i { p with snake := grown.dropLast } }
          else
            { s with players := (s.players.map (bumpKills p.id newHead)).set i (killPlayer p),
                     events := s.events ++
                       [GameEvent.playerDied p.id ((hitters.getLast?).map (fun q => q.id))] }

/-- Iterate the per-player closure over positions `i, i+1, …` for `fuel` steps. -/
def moveLoop (t : Int) (rand : Nat → Pos) : Nat → Nat → TickState → TickState
  | 0, _, s => s
  | fuel + 1, i, s => moveLoop t rand fuel (i + 1) (movePlayerAt t rand s i)

/-- The movement half of `updateGame`: every player position processed once,
in insertion order. -/
def movePlayers (t : Int) (rand : Nat → Pos) (s : TickState) : TickState :=
  moveLoop t rand s.players.length 0 s

/-- The movement phase of a tick, started on the room's pre-tick state. -/
def moveTick (r : GameRoom) : TickState :=
  movePlayers r.tileCount r.rand
    { players := r.players, foods := r.foods, rk := r.rk, events := [] }

/-- Manhattan distance of the bot AI (`Math.abs(head.x - food.x) + Math.abs(head.y - food.y)`). -/
def manhattan (head : Pos) (f : Food) : Nat :=
  (head.x - f.x).natAbs + (head.y - f.y).natAbs

/-- Nearest-food scan: first food wins ties, later foods win strictly. -/
def nearestFood (head : Pos) (f0 : Food) (rest : List Food) : Food :=
  rest.foldl (fun best f => if manhattan head f < manhattan head best then f else best) f0

/-- The greedy direction choice of `updateBotAI` (prefer the axis with the
larger distance; a choice reversing the current axis component is skipped). -/
def greedyDir (head : Pos) (dir : Dir) (f0 : Food) (rest : List Food) : Dir :=
  let nf := nearestFood head f0 rest
  let dx := nf.x - head.x
  let dy := nf.y - head.y
  if dx.natAbs > dy.natAbs then
    if 0 < dx ∧ dir.dx ≠ -1 then { dx := 1, dy := 0 }
    else if dx < 0 ∧ dir.dx ≠ 1 then { dx := -1, dy := 0 }
    else dir
  else
    if 0 < dy ∧ dir.dy ≠ -1 then { dx := 0, dy := 1 }
    else if dy < 0 ∧ dir.dy ≠ 1 then { dx := 0, dy := -1 }
    else dir

/-- The fixed alternative list of the bot wall-avoidance code. -/
def botAlternatives : List Dir := [⟨0, 1⟩, ⟨0, -1⟩, ⟨1, 0⟩, ⟨-1, 0⟩]

/-- Wall-avoidance fallback of `updateBotAI`: when the chosen direction runs
out of bounds, take the first in-bounds alternative that is not the exact
reversal of the current direction; keep the chosen direction when none is. -/
def wallAvoid (t : Int) (head : Pos) (dir : Dir) (nd : Dir) : Dir :=
  if outOfBounds t { x := head.x + nd.dx, y := head.y + nd.dy } then
    let alts := botAlternatives.filter (fun d => !decide (d.dx = -dir.dx ∧ d.dy = -dir.dy))
    match alts.find? (fun d => !outOfBounds t { x := head.x + d.dx, y := head.y + d.dy }) with
    | some alt => alt
    | none => nd
  else nd

/-- Full per-bot direction decision of `updateBotAI` (the source reads
`room.foods[0]` so an empty food list is never scanned; modelled as keeping
the direction). -/
def chooseBotDir (t : Int) (foods : List Food) (head : Pos) (dir : Dir) : Dir :=
  match foods with
  | [] => dir
  | f0 :: rest => wallAvoid t head dir (greedyDir head dir f0 rest)

/-- The `updateBotAI` function: every alive bot with a nonempty snake gets a
fresh direction; everything else is untouched. -/
def updateBotAI (t : Int) (foods : List Food) (players : List Player) : List Player :=
  players.map (fun p =>
    if p.isBot = true ∧ p.alive = true then
      match p.snake with
      | [] => p
      | head :: _ => { p with direction := chooseBotDir t foods head p.direction }
    else p)

/-- The `updateGame` tick: movement/collision loop over all players, then
`updateBotAI`, then the `game_update` broadcast. -/
def updateGame (r : GameRoom) : GameRoom × List GameEvent :=
  let s := movePlayers r.tileCount r.rand
    { players := r.players, foods := r.foods, rk := r.rk, events := [] }
  ({ r with players := updateBotAI r.tileCount s.foods s.players,
            foods := s.foods, rk := s.rk },
   s.events ++ [GameEvent.gameUpdate])

/-- The serialized player shape of `getGameState` (no direction field). -/
structure PlayerState where
  id : String
  name : String
  snake : List Pos
  color : String
  score : Nat
  kills : Nat
  alive : Bool
  isBot : Bool
  spectating : Bool
deriving DecidableEq

/-- Projection of a player into its broadcast shape. -/
def toPlayerState (p : Player) : PlayerState :=
  { id := p.id, name := p.name, snake := p.snake, color := p.color,
    score := p.score, kills := p.kills, alive := p.alive,
    isBot := p.isBot, spectating := p.spectating }

/-- The broadcast `gameState` shape. -/
structure GameState where
  players : List PlayerState
  foods : List Food
deriving DecidableEq

/-- The `getGameState` function: every player (alive or dead) plus the foods. -/
def getGameState (r : GameRoom) : GameState :=
  { players := r.players.map toPlayerState, foods := r.foods }

/-- The `createRoom` function. -/
def createRoom (id : String) (rand : Nat → Pos) : GameRoom :=
  { id := id, players := [],
    foods := [{ x := 15, y := 15, type := "apple" }, { x := 5, y := 5, type := "banana" }],
    gameLoop := false, gridSize := 20, tileCount := 20,
    botCounter := 0, maxPlayers := 20, rand := rand, rk := 0 }

/-- JavaScript `Map.set`: replace in place when the key is present, append
otherwise. -/
def mapSet (ps : List Player) (key : String) (p : Player) : List Player :=
  if ps.any (fun q => decide (q.id = key)) then
    ps.map (fun q => if q.id = key then p else q)
  else ps ++ [p]

/-- Synthetic bot identifier (source template literal `bot_N`). -/
def botId (n : Nat) : String := "bot_" ++ Nat.repr n

/-- The `spawnBot` function. -/
def spawnBot (r : GameRoom) : GameRoom × List GameEvent :=
  let n := r.botCounter + 1
  let bot : Player :=
    { id := botId n, name := "Bot " ++ Nat.repr n,
      snake := [r.rand r.rk],
      direction := { dx := 1, dy := 0 },
      color := COLORS.getD (r.players.length % COLORS.length) "",
      score := 0, kills := 0, alive := true, isBot := true, spectating := false }
  ({ r with botCounter := n, players := mapSet r.players bot.id bot, rk := r.rk + 1 },
   [GameEvent.playerJoined bot.id])

/-- The `for (let i = 0; i < botsToAdd; i++) spawnBot(room, io)` loop. -/
def spawnBots : GameRoom → Nat → GameRoom × List GameEvent
  | r, 0 => (r, [])
  | r, k + 1 =>
    let s1 := spawnBot r
    let s2 := spawnBots s1.1 k
    (s2.1, s1.2 ++ s2.2)

/-- The `manageBots` function: fill up with `min(neededBots, maxPlayers - totalPlayers)`
new bots when below capacity, then drop excess bots from the front of the
pre-existing bot list. -/
def manageBots (r : GameRoom) : GameRoom × List GameEvent :=
  let humans := r.players.filter (fun p => !p.isBot)
  let bots := r.players.filter (fun p => p.isBot)
  let neededBots : Int := (r.maxPlayers : Int) - humans.length
  let added :=
    if (r.players.length : Int) < (r.maxPlayers : Int) then
      spawnBots r (min neededBots ((r.maxPlayers : Int) - r.players.length)).toNat
    else (r, [])
  if (bots.length : Int) > neededBots then
    let victimIds := (bots.take ((bots.length : Int) - neededBots).toNat).map (fun p => p.id)
    ({ added.1 with players := added.1.players.filter (fun p => decide (p.id ∉ victimIds)) },
     added.2 ++ victimIds.map (fun idv => GameEvent.playerLeft idv))
  else added

/-- The human `Player` literal created by the `join_game` handler (the name
defaults to `PlayerN` when the requested name is falsy). -/
def mkHumanPlayer (r : GameRoom) (sockId : String) (playerName : String) : Player :=
  { id := sockId,
    name := if playerName = "" then "Player" ++ Nat.repr (r.players.length + 1) else playerName,
    snake := [r.rand r.rk], direction := { dx := 0, dy := 0 },
    color := COLORS.getD (r.players.length % COLORS.length) "",
    score := 0, kills := 0, alive := true, isBot := false, spectating := false }

/-- The room right after `room.players.set(socket.id, player)` in the join
handler (random cursor advanced by the spawn-cell draw). -/
def joinStage1 (r : GameRoom) (sockId : String) (playerName : String) : GameRoom :=
  { r with players := mapSet r.players sockId (mkHumanPlayer r sockId playerName),
           rk := r.rk + 1 }

/-- The `join_game` handler (capacity check against the literal 20 of the
source, player creation, `manageBots`, lazy game-loop start). -/
def joinGame (r : GameRoom) (sockId : String) (playerName : String) :
    GameRoom × List GameEvent :=
  if r.players.length ≥ 20 then (r, [GameEvent.roomFull])
  else
    let r1 := joinStage1 r sockId playerName
    let mb := manageBots r1
    let r2 := if mb.1.gameLoop then mb.1 else { mb.1 with gameLoop := true }
    (r2, [GameEvent.gameJoined sockId, GameEvent.playerJoined sockId] ++ mb.2)

/-- In-place direction write of the `player_move` handler: it mutates the
entry `Map.get` returned, i.e. the first (in practice unique) entry with the
given key. -/
def setDirFirst (ps : List Player) (sockId : String) (d : Dir) : List Player :=
  match ps with
  | [] => []
  | p :: rest =>
    if p.id = sockId then { p with direction := d } :: rest
    else p :: setDirFirst rest sockId d

/-- JavaScript `Map.get`, first entry with the key. -/
def findById (ps : List Player) (sockId : String) : Option Player :=
  ps.find? (fun p => decide (p.id = sockId))

/-- The `player_move` handler: no-op unless the bound entity exists and is
alive and the move does not put a nonzero component on an axis whose current
component is nonzero. The handler emits nothing. -/
def handlePlayerMove (r : GameRoom) (sockId : String) (d : Dir) : GameRoom :=
  match findById r.players sockId with
  | none => r
  | some p =>
    if p.alive = false then r
    else if (d.dx ≠ 0 ∧ p.direction.dx ≠ 0) ∨ (d.dy ≠ 0 ∧ p.direction.dy ≠ 0) then r
    else { r with players := setDirFirst r.players sockId d }

/-- The room right after `room.players.delete(socket.id)` in the disconnect
handler. -/
def disconnectStage1 (r : GameRoom) (sockId : String) : GameRoom :=
  { r with players := r.players.filter (fun p => decide (p.id ≠ sockId)) }

/-- The `disconnect` handler: delete the entry, `player_left`, `manageBots`,
then stop the loop and clear all players when no human remains and the loop
handle is set. -/
def handleDisconnect (r : GameRoom) (sockId : String) : GameRoom × List GameEvent :=
  let r1 := disconnectStage1 r sockId
  let mb := manageBots r1
  let r2 := mb.1
  let humans := r2.players.filter (fun p => !p.isBot)
  if humans.length = 0 ∧ r2.gameLoop = true then
    ({ r2 with gameLoop := false, players := [] }, GameEvent.playerLeft sockId :: mb.2)
  else (r2, GameEvent.playerLeft sockId :: mb.2)

/-- Number of human entities in the room. -/
def humansCnt (r : GameRoom) : Nat := (r.players.filter (fun p => !p.isBot)).length

/-- Number of bot entities in the room. -/
def botsCnt (r : GameRoom) : Nat := (r.players.filter (fun p => p.isBot)).length

/-- Connection-level events of the sequential model. -/
inductive Act where
  | join (sockId : String) (name : String)
  | move (sockId : String) (d : Dir)
  | disconnect (sockId : String)
  | tick
deriving DecidableEq

/-- One event of the single-threaded event loop; the tick timer only fires
while the loop handle is set. -/
def stepAct (r : GameRoom) : Act → GameRoom
  | Act.join s n => (joinGame r s n).1
  | Act.move s d => handlePlayerMove r s d
  | Act.disconnect s => (handleDisconnect r s).1
  | Act.tick => if r.gameLoop then (updateGame r).1 else r

/-- Run a sequence of events. -/
def runActs (r : GameRoom) (acts : List Act) : GameRoom :=
  acts.foldl stepAct r

/-- Fixed randomness stream used by the concrete witness scenarios. -/
def rand0 : Nat → Pos := fun _ => ⟨3, 3⟩

/-- Witness player for the move-handler scenario: alive, heading right. -/
def wA : Player :=
  { id := "A", name := "A", snake := [⟨5, 5⟩], direction := ⟨1, 0⟩,
    color := "", score := 0, kills := 0, alive := true, isBot := false,
    spectating := false }

/-- Witness room for the move-handler scenario. -/
def wRoomC7 : GameRoom := { createRoom "default" rand0 with players := [wA] }

/-- Modelled from the claim wording (spec section 4.3 step 3): try the
alternatives (0,1), (0,-1), (1,0), (-1,0) in that fixed order, skipping the
exact reversal of the current heading, and adopt the first alternative whose
resulting head position is in bounds; when none qualifies the heading is left
unchanged. -/
def claimAltFallback (t : Int) (head : Pos) (dir : Dir) : Dir :=
  match (botAlternatives.filter (fun d => !decide (d.dx = -dir.dx ∧ d.dy = -dir.dy))).find?
      (fun d => !outOfBounds t { x := head.x + d.dx, y := head.y + d.dy }) with
  | some d => d
  | none => dir

/-- Witness food list for the wall-fallback scenario. -/
def wFoods : List Food := [⟨15, 15, "apple"⟩, ⟨5, 5, "banana"⟩]

/-- Projection of a player to everything except the kill counter (the only
field the movement loop may change on entities other than the one being
processed). -/
def coreOf (p : Player) : Player := { p with kills := 0 }

/-- The per-tick growth law of one entity: when it ends the tick alive, its
body either kept its length and score, or grew by exactly one cell together
with exactly one score point; a nonempty body stays nonempty. -/
def tickLaw (p p' : Player) : Prop :=
  p'.alive = true →
    ((p'.snake.length = p.snake.length ∧ p'.score = p.score) ∨
     (p'.snake.length = p.snake.length + 1 ∧ p'.score = p.score + 1))
    ∧ (p.snake ≠ [] → p'.snake ≠ [])

/-- The growth law lifted to optional players (aligned positions). -/
def optTickLaw : Option Player → Option Player → Prop
  | some p, some p' => tickLaw p p'
  | none, none => True
  | _, _ => False

/-- Core equality of optional players. -/
def optCoreEq (a b : Option Player) : Prop := a.map coreOf = b.map coreOf

/-- Witness snake for the growth-law scenario: one cell left of a food. -/
def pC1 : Player :=
  { id := "C", name := "C", snake := [⟨14, 15⟩], direction := ⟨1, 0⟩,
    color := "", score := 0, kills := 0, alive := true, isBot := false,
    spectating := false }

/-- Witness room for the growth-law scenario. -/
def wRoomC1 : GameRoom := { createRoom "default" rand0 with players := [pC1] }

/-- Modelled from the claim: a tick that runs the Bot AI Controller first and
only then the movement and collision loop (the order spec section 4.4 states). -/
def updateGameAiFirstSpec (r : GameRoom) : GameRoom × List GameEvent :=
  let players0 := updateBotAI r.tileCount r.foods r.players
  let s := movePlayers r.tileCount r.rand
    { players := players0, foods := r.foods, rk := r.rk, events := [] }
  ({ r with players := s.players, foods := s.foods, rk := s.rk },
   s.events ++ [GameEvent.gameUpdate])

/-- Witness bot: at (10,10) heading right, while the nearest food pulls it up. -/
def bot0 : Player :=
  { id := "bot_1", name := "Bot 1", snake := [⟨10, 10⟩], direction := ⟨1, 0⟩,
    color := "", score := 0, kills := 0, alive := true, isBot := true,
    spectating := false }

/-- Counterexample room for the tick-ordering claim. -/
def roomC2 : GameRoom := { createRoom "default" rand0 with players := [bot0] }

/-- Witness victim for the collision scenario: head at (5,5) moving right. -/
def wA4 : Player :=
  { id := "A", name := "A", snake := [⟨5, 5⟩], direction := ⟨1, 0⟩,
    color := "", score := 0, kills := 0, alive := true, isBot := false,
    spectating := false }

/-- Witness killer for the collision scenario: body occupies (6,5). -/
def wB4 : Player :=
  { id := "B", name := "B", snake := [⟨6, 5⟩], direction := ⟨0, 0⟩,
    color := "", score := 0, kills := 0, alive := true, isBot := false,
    spectating := false }

/-- Witness tick state for the collision scenario. -/
def wS4 : TickState :=
  { players := [wA4, wB4], foods := [⟨15, 15, "apple"⟩], rk := 0, events := [] }

/-- Identity-and-role projection of a player. -/
def idBotOf (p : Player) : String × Bool := (p.id, p.isBot)

/-- Witness dead bot kept in the room and in the snapshot. -/
def wDeadBot : Player :=
  { id := "bot_1", name := "Bot 1", snake := [⟨2, 2⟩], direction := ⟨1, 0⟩,
    color := "", score := 0, kills := 0, alive := false, isBot := true,
    spectating := false }

/-- Witness human sharing the room with the dead bot. -/
def wHuman10 : Player :=
  { id := "H", name := "H", snake := [⟨4, 4⟩], direction := ⟨0, 0⟩,
    color := "", score := 0, kills := 0, alive := true, isBot := false,
    spectating := false }

/-- Witness room at capacity 2 holding one human and one dead bot. -/
def wRoomC10 : GameRoom :=
  { createRoom "default" rand0 with players := [wHuman10, wDeadBot], maxPlayers := 2 }

/-- Decimal digit characters of a natural number, most significant first
(the list `Nat.repr` produces). -/
def tdc (n : Nat) : List Char :=
  if h : n < 10 then [Nat.digitChar n]
  else tdc (n / 10) ++ [Nat.digitChar (n % 10)]
decreasing_by
  exact Nat.div_lt_self (by omega) (by omega)

/-- Well-formedness of the bot-naming counter: every player whose id is a
synthetic bot identifier was numbered no higher than the monotone counter
(so the counter is never reused). -/
def BotFresh (r : GameRoom) : Prop :=
  ∀ p ∈ r.players, ∀ m : Nat, p.id = botId m → m ≤ r.botCounter

/-- Witness human for the rebalancing-count scenario. -/
def wAlice : Player :=
  { id := "alice", name := "Alice", snake := [⟨3, 3⟩], direction := ⟨0, 0⟩,
    color := "", score := 0, kills := 0, alive := true, isBot := false,
    spectating := false }

/-- Witness room holding a single human before rebalancing. -/
def wRoomC3 : GameRoom := { createRoom "default" rand0 with players := [wAlice] }

/-- Every bot entity carries a synthetic `bot_N` identifier. -/
def BotShaped (r : GameRoom) : Prop :=
  ∀ p ∈ r.players, p.isBot = true → ∃ m, p.id = botId m

/-- Socket identifiers are opaque session ids, never of the synthetic
`bot_N` shape (spec section 3: human ids are opaque session identifiers,
bot ids synthetic counter-derived ones). -/
def ActOk : Act → Prop
  | Act.join s _ => ∀ m, s ≠ botId m
  | Act.disconnect s => ∀ m, s ≠ botId m
  | Act.move _ _ => True
  | Act.tick => True

/-- The reachable-state invariant of the single default room. -/
def Inv (r : GameRoom) : Prop :=
  r.maxPlayers = 20
  ∧ humansCnt r ≤ 1
  ∧ r.players.length ≤ 20
  ∧ (1 ≤ humansCnt r → r.players.length = 20)
  ∧ (r.gameLoop = true ↔ 1 ≤ humansCnt r)
  ∧ BotShaped r
  ∧ BotFresh r

/-!
Shallow embedding of the multiplayer snake arena server
(`src/worldconquest/server.js`, with the earlier evolution in
`src/server/src/multiplayer.ts` agreeing on the shared parts).

JavaScript `Map`s (insertion ordered, key → value) are modelled as
association lists ordered by insertion; `Map.set` replaces in place when the
key is present and appends otherwise; `Map.delete` filters the key out.
`Math.random()`-derived grid cells are modelled by an explicit stream
`rand : Nat → Pos` together with a cursor `rk` stored in the room.
Socket emissions are modelled by a `GameEvent` list returned by each handler.
-/

/-! ### Generic list helpers -/

theorem set_getElem?_same {α : Type} (l : List α) (i : Nat) (a : α)
    (h : l[i]? = some a) : l.set i a = l := by
  apply List.ext_getElem?
  intro n
  by_cases hn : n = i
  · subst hn
    rw [List.getElem?_set_self (List.getElem?_eq_some.mp h).1, h]
  · exact List.getElem?_set_ne (fun he => hn he.symm)

/-! ### Food invariance through a tick -/

theorem respawnFoods_some {rp h : Pos} : ∀ {fs fs2 : List Food},
    respawnFoods rp h fs = some fs2 →
    fs2.length = fs.length ∧ fs2.map Food.type = fs.map Food.type := by
  intro fs
  induction fs with
  | nil => intro fs2 h2; simp [respawnFoods] at h2
  | cons f rest ih =>
    intro fs2 h2
    unfold respawnFoods at h2
    split at h2
    · cases h2
      simp
    · obtain ⟨fs3, h3, rfl⟩ := Option.map_eq_some'.mp h2
      obtain ⟨hl, hm⟩ := ih h3
      simp [hl, hm]

theorem movePlayerAt_foods (t : Int) (rand : Nat → Pos) (s : TickState) (i : Nat) :
    (movePlayerAt t rand s i).foods.length = s.foods.length ∧
    (movePlayerAt t rand s i).foods.map Food.type = s.foods.map Food.type := by
  unfold movePlayerAt
  cases hp : s.players[i]? with
  | none => exact ⟨rfl, rfl⟩
  | some p =>
    dsimp only
    split
    · exact ⟨rfl, rfl⟩
    split
    · exact ⟨rfl, rfl⟩
    split
    · exact ⟨rfl, rfl⟩
    split
    · exact ⟨rfl, rfl⟩
    split
    · exact ⟨rfl, rfl⟩
    split
    · split
      · next foods2 heq => exact respawnFoods_some heq
      · exact ⟨rfl, rfl⟩
    · exact ⟨rfl, rfl⟩

theorem moveLoop_foods (t : Int) (rand : Nat → Pos) : ∀ (fuel i : Nat) (s : TickState),
    (moveLoop t rand fuel i s).foods.length = s.foods.length ∧
    (moveLoop t rand fuel i s).foods.map Food.type = s.foods.map Food.type := by
  intro fuel
  induction fuel with
  | zero => intro i s; exact ⟨rfl, rfl⟩
  | succ n ih =>
    intro i s
    obtain ⟨hl, hm⟩ := ih (i + 1) (movePlayerAt t rand s i)
    obtain ⟨hl2, hm2⟩ := movePlayerAt_foods t rand s i
    exact ⟨by rw [moveLoop, hl, hl2], by rw [moveLoop, hm, hm2]⟩

theorem spawnBots_foods : ∀ (k : Nat) (r : GameRoom),
    (spawnBots r k).1.foods = r.foods := by
  intro k
  induction k with
  | zero => intro r; rfl
  | succ n ih => intro r; exact ih (spawnBot r).1

theorem manageBots_foods (r : GameRoom) : (manageBots r).1.foods = r.foods := by
  unfold manageBots
  dsimp only
  split
  · split
    · exact spawnBots_foods _ r
    · rfl
  · split
    · exact spawnBots_foods _ r
    · rfl

theorem stepAct_foods_length (r : GameRoom) (a : Act) :
    (stepAct r a).foods.length = r.foods.length := by
  cases a with
  | join s n =>
    show ((joinGame r s n).1).foods.length = _
    unfold joinGame
    split
    · rfl
    · dsimp only
      split <;> simp [manageBots_foods, joinStage1]
  | move s d =>
    show (handlePlayerMove r s d).foods.length = _
    unfold handlePlayerMove
    split
    · rfl
    · split
      · rfl
      · split
        · rfl
        · rfl
  | disconnect s =>
    show ((handleDisconnect r s).1).foods.length = _
    unfold handleDisconnect
    dsimp only
    split
    · show (manageBots _).1.foods.length = _
      rw [manageBots_foods]
      rfl
    · show (manageBots _).1.foods.length = _
      rw [manageBots_foods]
      rfl
  | tick =>
    show (if r.gameLoop then (updateGame r).1 else r).foods.length = _
    split
    · exact (moveLoop_foods r.tileCount r.rand _ 0 _).1
    · rfl

/-- C6: the number of food items is invariant across every tick (and the
replacement preserves each food's type in place); the room starts with the
configured count 2, and no handler of the sequential event model ever changes
the food count, so it always equals the initial configured count. -/
theorem food_count_invariant (r : GameRoom) :
    (updateGame r).1.foods.length = r.foods.length
    ∧ (updateGame r).1.foods.map Food.type = r.foods.map Food.type
    ∧ (∀ (id : String) (rand : Nat → Pos) (acts : List Act),
        (runActs (createRoom id rand) acts).foods.length = 2) := by
  refine ⟨(moveLoop_foods r.tileCount r.rand _ 0 _).1,
          (moveLoop_foods r.tileCount r.rand _ 0 _).2, ?_⟩
  intro id rand acts
  have h2 : ∀ (acts : List Act) (r0 : GameRoom),
      (runActs r0 acts).foods.length = r0.foods.length := by
    intro acts
    induction acts with
    | nil => intro r0; rfl
    | cons a rest ih =>
      intro r0
      show (runActs (stepAct r0 a) rest).foods.length = _
      rw [ih (stepAct r0 a), stepAct_foods_length]
  rw [h2 acts (createRoom id rand)]
  rfl

/-! ### The player_move handler (C7) -/

theorem findById_setDirFirst (ps : List Player) (sid : String) (d : Dir) :
    findById (setDirFirst ps sid d) sid =
      (findById ps sid).map (fun p => { p with direction := d }) := by
  induction ps with
  | nil => rfl
  | cons p rest ih =>
    by_cases h : p.id = sid
    · simp [setDirFirst, findById, h]
    · simpa [setDirFirst, findById, h] using ih

theorem dir_ne_zero_cases (d : Dir) (h : d ≠ ⟨0, 0⟩) : d.dx ≠ 0 ∨ d.dy ≠ 0 := by
  by_contra hc
  push_neg at hc
  exact h (by cases d; simp_all)

theorem handlePlayerMove_of_found (r : GameRoom) (sockId : String) (d : Dir) (p : Player)
    (hp : findById r.players sockId = some p) :
    handlePlayerMove r sockId d =
      if p.alive = false then r
      else if (d.dx ≠ 0 ∧ p.direction.dx ≠ 0) ∨ (d.dy ≠ 0 ∧ p.direction.dy ≠ 0) then r
      else { r with players := setDirFirst r.players sockId d } := by
  unfold handlePlayerMove
  rw [hp]

/-- C7: a `player_move` request is applied only when the bound entity exists
and is alive; a request that would reverse the current heading on either axis
is silently ignored (the room is returned unchanged and the handler emits
nothing); consequently the bound entity's heading after any move request is
never the exact negation of a nonzero previous heading. -/
theorem playerMove_rules (r : GameRoom) (sockId : String) (d : Dir)
    (hdx : d.dx = -1 ∨ d.dx = 0 ∨ d.dx = 1)
    (hdy : d.dy = -1 ∨ d.dy = 0 ∨ d.dy = 1)
    (haxis : d.dx = 0 ∨ d.dy = 0) :
    (findById r.players sockId = none → handlePlayerMove r sockId d = r)
    ∧ (∀ p, findById r.players sockId = some p → p.alive = false →
        handlePlayerMove r sockId d = r)
    ∧ (∀ p, findById r.players sockId = some p →
        ((p.direction.dx ≠ 0 ∧ d.dx = -p.direction.dx) ∨
         (p.direction.dy ≠ 0 ∧ d.dy = -p.direction.dy)) →
        handlePlayerMove r sockId d = r)
    ∧ (∀ p p', findById r.players sockId = some p →
        findById (handlePlayerMove r sockId d).players sockId = some p' →
        p.direction ≠ ⟨0, 0⟩ →
        p'.direction ≠ ⟨-p.direction.dx, -p.direction.dy⟩) := by
  refine ⟨?_, ?_, ?_, ?_⟩
  · intro h
    unfold handlePlayerMove
    rw [h]
  · intro p hp hal
    unfold handlePlayerMove
    rw [hp]
    simp [hal]
  · intro p hp hrev
    have hguard : (d.dx ≠ 0 ∧ p.direction.dx ≠ 0) ∨ (d.dy ≠ 0 ∧ p.direction.dy ≠ 0) := by
      rcases hrev with ⟨h1, h2⟩ | ⟨h1, h2⟩
      · exact Or.inl ⟨by omega, h1⟩
      · exact Or.inr ⟨by omega, h1⟩
    rw [handlePlayerMove_of_found r sockId d p hp, if_pos hguard]
    split <;> rfl
  · intro p p' hp hp' hnz
    rw [handlePlayerMove_of_found r sockId d p hp] at hp'
    have hsame : findById r.players sockId = some p' → p'.direction ≠
        ⟨-p.direction.dx, -p.direction.dy⟩ := by
      intro hp2
      rw [hp] at hp2
      cases hp2
      intro he
      have hx : p.direction.dx = -p.direction.dx := congrArg Dir.dx he
      have hy : p.direction.dy = -p.direction.dy := congrArg Dir.dy he
      have hx0 : p.direction.dx = 0 := by omega
      have hy0 : p.direction.dy = 0 := by omega
      refine hnz ?_
      calc p.direction = ⟨p.direction.dx, p.direction.dy⟩ := rfl
        _ = ⟨0, 0⟩ := by rw [hx0, hy0]
    by_cases hal : p.alive = false
    · rw [if_pos hal] at hp'
      exact hsame hp'
    · rw [if_neg hal] at hp'
      by_cases hg : (d.dx ≠ 0 ∧ p.direction.dx ≠ 0) ∨ (d.dy ≠ 0 ∧ p.direction.dy ≠ 0)
      · rw [if_pos hg] at hp'
        exact hsame hp'
      · rw [if_neg hg] at hp'
        have hfs := findById_setDirFirst r.players sockId d
        rw [hp] at hfs
        have hp2 : Option.map (fun q => { q with direction := d }) (some p) = some p' := by
          rw [← hfs]
          exact hp'
        have hp'' : (some { p with direction := d } : Option Player) = some p' := hp2
        cases hp''
        intro he
        have hx : d.dx = -p.direction.dx := congrArg Dir.dx he
        have hy : d.dy = -p.direction.dy := congrArg Dir.dy he
        rcases dir_ne_zero_cases _ hnz with h0 | h0
        · exact hg (Or.inl ⟨by omega, h0⟩)
        · exact hg (Or.inr ⟨by omega, h0⟩)

theorem playerMove_rules_witness :
    findById wRoomC7.players "A" = some wA
    ∧ handlePlayerMove wRoomC7 "A" ⟨-1, 0⟩ = wRoomC7 :=
  ⟨rfl, (playerMove_rules wRoomC7 "A" ⟨-1, 0⟩ (by decide) (by decide)
      (by decide)).2.2.1 wA rfl (by decide)⟩

/-! ### Bot wall-avoidance fallback (C8) -/

theorem outOfBounds_false_iff (t : Int) (p : Pos) :
    outOfBounds t p = false ↔ 0 ≤ p.x ∧ p.x < t ∧ 0 ≤ p.y ∧ p.y < t := by
  unfold outOfBounds
  simp only [Bool.or_eq_false_iff, decide_eq_false_iff_not]
  omega

theorem exists_inbounds_alt (t : Int) (head : Pos) (dir : Dir)
    (ht : 2 ≤ t) (hin : outOfBounds t head = false) :
    ∃ d ∈ botAlternatives.filter (fun d => !decide (d.dx = -dir.dx ∧ d.dy = -dir.dy)),
      (!outOfBounds t { x := head.x + d.dx, y := head.y + d.dy }) = true := by
  obtain ⟨hx0, hx1, hy0, hy1⟩ := (outOfBounds_false_iff t head).mp hin
  by_cases hdx : dir.dx = 0
  · by_cases hxlt : head.x + 1 < t
    · refine ⟨⟨1, 0⟩, ?_, ?_⟩
      · refine List.mem_filter.mpr ⟨by simp [botAlternatives], ?_⟩
        simp only [Bool.not_eq_true', decide_eq_false_iff_not]
        rintro ⟨h1, -⟩
        omega
      · simp only [Bool.not_eq_true']
        exact (outOfBounds_false_iff t _).mpr (by dsimp only; omega)
    · refine ⟨⟨-1, 0⟩, ?_, ?_⟩
      · refine List.mem_filter.mpr ⟨by simp [botAlternatives], ?_⟩
        simp only [Bool.not_eq_true', decide_eq_false_iff_not]
        rintro ⟨h1, -⟩
        omega
      · simp only [Bool.not_eq_true']
        exact (outOfBounds_false_iff t _).mpr (by dsimp only; omega)
  · by_cases hylt : head.y + 1 < t
    · refine ⟨⟨0, 1⟩, ?_, ?_⟩
      · refine List.mem_filter.mpr ⟨by simp [botAlternatives], ?_⟩
        simp only [Bool.not_eq_true', decide_eq_false_iff_not]
        rintro ⟨h1, -⟩
        omega
      · simp only [Bool.not_eq_true']
        exact (outOfBounds_false_iff t _).mpr (by dsimp only; omega)
    · refine ⟨⟨0, -1⟩, ?_, ?_⟩
      · refine List.mem_filter.mpr ⟨by simp [botAlternatives], ?_⟩
        simp only [Bool.not_eq_true', decide_eq_false_iff_not]
        rintro ⟨h1, -⟩
        omega
      · simp only [Bool.not_eq_true']
        exact (outOfBounds_false_iff t _).mpr (by dsimp only; omega)

/-- C8: when the greedy food-seeking heading would move the bot's head out of
the grid, the bot adopts exactly what the claim describes: the first
alternative of (0,1), (0,-1), (1,0), (-1,0) — skipping the exact reversal of
its current heading — whose resulting head position is in bounds; moreover
such an alternative always exists (for an in-bounds head on a grid of side at
least 2), so the none-qualifies case never fires. -/
theorem bot_wall_fallback (t : Int) (foods : List Food) (head : Pos) (dir : Dir)
    (f0 : Food) (rest : List Food)
    (hf : foods = f0 :: rest)
    (ht : 2 ≤ t)
    (hin : outOfBounds t head = false)
    (hout : outOfBounds t { x := head.x + (greedyDir head dir f0 rest).dx,
                            y := head.y + (greedyDir head dir f0 rest).dy } = true) :
    chooseBotDir t foods head dir = claimAltFallback t head dir
    ∧ ∃ d, (botAlternatives.filter (fun d => !decide (d.dx = -dir.dx ∧ d.dy = -dir.dy))).find?
        (fun d => !outOfBounds t { x := head.x + d.dx, y := head.y + d.dy }) = some d := by
  obtain ⟨d, hdmem, hdpred⟩ := exists_inbounds_alt t head dir ht hin
  have hfind : ((botAlternatives.filter
      (fun d => !decide (d.dx = -dir.dx ∧ d.dy = -dir.dy))).find?
      (fun d => !outOfBounds t { x := head.x + d.dx, y := head.y + d.dy })).isSome :=
    List.find?_isSome.mpr ⟨d, hdmem, hdpred⟩
  obtain ⟨d2, hd2⟩ := Option.isSome_iff_exists.mp hfind
  refine ⟨?_, d2, hd2⟩
  rw [hf]
  unfold chooseBotDir wallAvoid claimAltFallback
  dsimp only
  rw [if_pos hout, hd2]

theorem bot_wall_fallback_witness :
    chooseBotDir 20 wFoods ⟨19, 15⟩ ⟨1, 0⟩ = claimAltFallback 20 ⟨19, 15⟩ ⟨1, 0⟩
    ∧ claimAltFallback 20 ⟨19, 15⟩ ⟨1, 0⟩ = ⟨0, 1⟩ :=
  ⟨(bot_wall_fallback 20 wFoods ⟨19, 15⟩ ⟨1, 0⟩ ⟨15, 15, "apple"⟩ [⟨5, 5, "banana"⟩]
      rfl (by decide) (by decide) (by decide)).1, by decide⟩

/-! ### Per-entity frame and growth law of the movement loop (C1) -/

theorem tickLaw_refl (p : Player) : tickLaw p p :=
  fun _ => ⟨Or.inl ⟨rfl, rfl⟩, fun h => h⟩

theorem optTickLaw_refl (a : Option Player) : optTickLaw a a := by
  cases a with
  | none => trivial
  | some p => exact tickLaw_refl p

theorem tickLaw_right {p q q' : Player} (h1 : tickLaw p q) (hs : q.snake = q'.snake)
    (hsc : q.score = q'.score) (ha : q.alive = q'.alive) : tickLaw p q' := by
  intro ha'
  obtain ⟨hd, hne⟩ := h1 (by rw [ha]; exact ha')
  exact ⟨by rw [← hs, ← hsc]; exact hd, fun h0 => by rw [← hs]; exact hne h0⟩

theorem tickLaw_left {p p' q : Player} (hs : p.snake = p'.snake)
    (hsc : p.score = p'.score) (h1 : tickLaw p' q) : tickLaw p q := by
  intro ha
  obtain ⟨hd, hne⟩ := h1 ha
  exact ⟨by rw [hs, hsc]; exact hd, fun h0 => hne (by rw [← hs]; exact h0)⟩

theorem coreOf_snake (p : Player) : (coreOf p).snake = p.snake := rfl

theorem optCoreEq_none {b : Option Player} (h : optCoreEq none b) : b = none := by
  cases b with
  | none => rfl
  | some q => exact absurd h.symm (by simp [optCoreEq])

theorem optCoreEq_some {p : Player} {b : Option Player} (h : optCoreEq (some p) b) :
    ∃ q, b = some q ∧ coreOf p = coreOf q := by
  cases b with
  | none => exact absurd h (by simp [optCoreEq])
  | some q =>
    refine ⟨q, rfl, ?_⟩
    simpa [optCoreEq] using h

theorem optTickLaw_coreEq_right {a b c : Option Player}
    (h1 : optTickLaw a b) (h2 : optCoreEq b c) : optTickLaw a c := by
  cases a with
  | none =>
    cases b with
    | none => rw [optCoreEq_none h2]; trivial
    | some q => exact absurd h1 (by simp [optTickLaw])
  | some p =>
    cases b with
    | none => exact absurd h1 (by simp [optTickLaw])
    | some q =>
      obtain ⟨q', rfl, hcq⟩ := optCoreEq_some h2
      have hs := congrArg Player.snake hcq
      have hsc := congrArg Player.score hcq
      have ha := congrArg Player.alive hcq
      exact tickLaw_right h1 hs hsc ha

theorem optTickLaw_coreEq_left {a b c : Option Player}
    (h1 : optCoreEq a b) (h2 : optTickLaw b c) : optTickLaw a c := by
  cases a with
  | none =>
    rw [optCoreEq_none h1] at h2
    exact h2
  | some p =>
    obtain ⟨q, rfl, hcq⟩ := optCoreEq_some h1
    cases c with
    | none => exact absurd h2 (by simp [optTickLaw])
    | some c' =>
      have hs := congrArg Player.snake hcq
      have hsc := congrArg Player.score hcq
      exact tickLaw_left hs hsc h2

theorem coreOf_bumpKills (pid : String) (h : Pos) (q : Player) :
    coreOf (bumpKills pid h q) = coreOf q := by
  unfold bumpKills coreOf
  split <;> rfl

theorem optCoreEq_set_ne (l : List Player) (j i : Nat) (v : Player) (hij : i ≠ j) :
    optCoreEq ((l.set j v)[i]?) (l[i]?) := by
  unfold optCoreEq
  rw [List.getElem?_set_ne (Ne.symm hij)]

theorem optCoreEq_map_bump_set_ne (l : List Player) (pid : String) (h : Pos)
    (j i : Nat) (v : Player) (hij : i ≠ j) :
    optCoreEq (((l.map (bumpKills pid h)).set j v)[i]?) (l[i]?) := by
  unfold optCoreEq
  rw [List.getElem?_set_ne (Ne.symm hij), List.getElem?_map]
  cases l[i]? with
  | none => rfl
  | some q => simp [coreOf_bumpKills]

theorem movePlayerAt_frame (t : Int) (rand : Nat → Pos) (s : TickState) (j i : Nat)
    (hij : i ≠ j) :
    optCoreEq ((movePlayerAt t rand s j).players[i]?) (s.players[i]?) := by
  unfold movePlayerAt
  cases hp : s.players[j]? with
  | none => rfl
  | some p =>
    dsimp only
    split
    · rfl
    split
    · rfl
    split
    · rfl
    split
    · exact optCoreEq_set_ne s.players j i _ hij
    split
    · exact optCoreEq_set_ne s.players j i _ hij
    split
    · split
      · exact optCoreEq_set_ne s.players j i _ hij
      · exact optCoreEq_set_ne s.players j i _ hij
    · exact optCoreEq_map_bump_set_ne s.players _ _ j i _ hij

theorem movePlayerAt_self_law (t : Int) (rand : Nat → Pos) (s : TickState) (i : Nat) :
    optTickLaw (s.players[i]?) ((movePlayerAt t rand s i).players[i]?) := by
  unfold movePlayerAt
  cases hp : s.players[i]? with
  | none =>
    rw [hp]
    trivial
  | some p =>
    have hilt : i < s.players.length := (List.getElem?_eq_some.mp hp).1
    dsimp only
    split
    · rw [hp]; exact tickLaw_refl p
    split
    · rw [hp]; exact tickLaw_refl p
    split
    · rw [hp]; exact tickLaw_refl p
    split
    · show optTickLaw (some p) ((s.players.set i (killPlayer p))[i]?)
      rw [List.getElem?_set_self hilt]
      intro ha
      exact absurd ha (by simp [killPlayer])
    split
    · show optTickLaw (some p) ((s.players.set i (killPlayer p))[i]?)
      rw [List.getElem?_set_self hilt]
      intro ha
      exact absurd ha (by simp [killPlayer])
    split
    · split
      · show optTickLaw (some p)
          ((s.players.set i { p with snake := _ :: p.snake, score := p.score + 1 })[i]?)
        rw [List.getElem?_set_self hilt]
        intro _
        refine ⟨Or.inr ⟨by simp, rfl⟩, fun _ => by simp⟩
      · show optTickLaw (some p)
          ((s.players.set i { p with snake := (_ :: p.snake).dropLast })[i]?)
        rw [List.getElem?_set_self hilt]
        intro _
        refine ⟨Or.inl ⟨by simp, rfl⟩, fun h0 => ?_⟩
        have : p.snake.length ≠ 0 := fun hl => h0 (List.eq_nil_of_length_eq_zero hl)
        simp only [List.dropLast_cons_of_ne_nil h0]
        exact List.cons_ne_nil _ _
    · show optTickLaw (some p)
        (((s.players.map (bumpKills p.id _)).set i (killPlayer p))[i]?)
      rw [List.getElem?_set_self (by simpa using hilt)]
      intro ha
      exact absurd ha (by simp [killPlayer])

theorem moveLoop_law (t : Int) (rand : Nat → Pos) : ∀ (fuel i : Nat) (s : TickState),
    (∀ k, k < i → optCoreEq ((moveLoop t rand fuel i s).players[k]?) (s.players[k]?))
    ∧ (∀ k, i ≤ k → optTickLaw (s.players[k]?) ((moveLoop t rand fuel i s).players[k]?)) := by
  intro fuel
  induction fuel with
  | zero => exact fun i s => ⟨fun k _ => rfl, fun k _ => optTickLaw_refl _⟩
  | succ n ih =>
    intro i s
    obtain ⟨ihc, ihl⟩ := ih (i + 1) (movePlayerAt t rand s i)
    constructor
    · intro k hk
      show optCoreEq ((moveLoop t rand n (i + 1) (movePlayerAt t rand s i)).players[k]?)
        (s.players[k]?)
      exact (ihc k (by omega)).trans (movePlayerAt_frame t rand s i k (by omega))
    · intro k hk
      show optTickLaw (s.players[k]?)
        ((moveLoop t rand n (i + 1) (movePlayerAt t rand s i)).players[k]?)
      by_cases hki : k = i
      · subst hki
        exact optTickLaw_coreEq_right (movePlayerAt_self_law t rand s k)
          (ihc k (by omega)).symm
      · exact optTickLaw_coreEq_left (movePlayerAt_frame t rand s i k hki).symm
          (ihl k (by omega))

theorem updateBotAI_fields (t : Int) (fs : List Food) (q : Player) :
    ((fun p => if p.isBot = true ∧ p.alive = true then
        match p.snake with
        | [] => p
        | head :: _ => { p with direction := chooseBotDir t fs head p.direction }
      else p) q).snake = q.snake
    ∧ ((fun p => if p.isBot = true ∧ p.alive = true then
        match p.snake with
        | [] => p
        | head :: _ => { p with direction := chooseBotDir t fs head p.direction }
      else p) q).score = q.score
    ∧ ((fun p => if p.isBot = true ∧ p.alive = true then
        match p.snake with
        | [] => p
        | head :: _ => { p with direction := chooseBotDir t fs head p.direction }
      else p) q).alive = q.alive := by
  dsimp only
  split
  · split <;> exact ⟨rfl, rfl, rfl⟩
  · exact ⟨rfl, rfl, rfl⟩

/-- C1: for every tick and every entity alive at the end of the tick, the
body length is unchanged when no food was consumed (score unchanged) and
grows by exactly one cell when food was consumed (score incremented by one);
it is never reduced, and a nonempty body never becomes empty. -/
theorem tick_length_law (r : GameRoom) (i : Nat) (p p' : Player)
    (hp : r.players[i]? = some p)
    (hp' : (updateGame r).1.players[i]? = some p')
    (halive : p'.alive = true) :
    ((p'.snake.length = p.snake.length ∧ p'.score = p.score) ∨
     (p'.snake.length = p.snake.length + 1 ∧ p'.score = p.score + 1))
    ∧ (p.snake ≠ [] → p'.snake ≠ []) := by
  have hmove0 := (moveLoop_law r.tileCount r.rand r.players.length 0
    { players := r.players, foods := r.foods, rk := r.rk, events := [] }).2 i (Nat.zero_le i)
  have hmove : optTickLaw (r.players[i]?) ((moveTick r).players[i]?) := hmove0
  rw [hp] at hmove
  have hbot : (updateGame r).1.players[i]? =
      ((moveTick r).players[i]?).map
        (fun p => if p.isBot = true ∧ p.alive = true then
          match p.snake with
          | [] => p
          | head :: _ =>
            { p with direction := chooseBotDir r.tileCount (moveTick r).foods head p.direction }
        else p) := by
    exact List.getElem?_map _ _ _
  cases hmq : (moveTick r).players[i]? with
  | none =>
    rw [hmq] at hbot
    rw [hbot] at hp'
    exact absurd hp' (by simp)
  | some q =>
    rw [hmq] at hmove
    rw [hmq, Option.map_some'] at hbot
    rw [hbot] at hp'
    obtain ⟨hs, hsc, ha⟩ := updateBotAI_fields r.tileCount (moveTick r).foods q
    have hq' : tickLaw p p' := by
      cases hp'
      exact tickLaw_right hmove hs.symm hsc.symm ha.symm
    exact hq' halive

theorem tick_length_law_witness :
    wRoomC1.players[0]? = some pC1
    ∧ (updateGame wRoomC1).1.players[0]? =
        some { pC1 with snake := [⟨15, 15⟩, ⟨14, 15⟩], score := 1 }
    ∧ (({ pC1 with snake := [⟨15, 15⟩, ⟨14, 15⟩], score := 1 } : Player).snake.length =
          pC1.snake.length + 1
        ∧ ({ pC1 with snake := [⟨15, 15⟩, ⟨14, 15⟩], score := 1 } : Player).score =
          pC1.score + 1) :=
  ⟨rfl, by decide, by
    rcases (tick_length_law wRoomC1 0 pC1
        { pC1 with snake := [⟨15, 15⟩, ⟨14, 15⟩], score := 1 } rfl (by decide) rfl).1 with
      h | h
    · exact absurd h.2 (by decide)
    · exact h⟩

/-! ### Tick-internal ordering of bot AI and movement (C2) -/

theorem tick_order_counterexample :
    (updateGame roomC2).1.players.map (fun p => p.snake) ≠
      (updateGameAiFirstSpec roomC2).1.players.map (fun p => p.snake) := by
  decide

theorem updateBotAI_map_proj (t : Int) (fs : List Food) (ps : List Player) :
    (updateBotAI t fs ps).map (fun p => (p.id, p.snake, p.score, p.kills, p.alive)) =
      ps.map (fun p => (p.id, p.snake, p.score, p.kills, p.alive)) := by
  unfold updateBotAI
  rw [List.map_map]
  apply List.map_congr_left
  intro p _
  dsimp only [Function.comp]
  split
  · split <;> rfl
  · rfl

/-- C2 (amended): within a tick, the Bot AI Controller runs only after every
entity's movement and collision resolution; the movement phase alone
determines each entity's body, score, kills and liveness, and each alive
bot's post-tick heading is the AI choice computed on the post-movement state
(so it takes effect only in the next tick). -/
theorem updateBotAI_after_movement (r : GameRoom) :
    ((updateGame r).1.players.map (fun p => (p.id, p.snake, p.score, p.kills, p.alive)) =
      (moveTick r).players.map (fun p => (p.id, p.snake, p.score, p.kills, p.alive)))
    ∧ (∀ (i : Nat) (q : Player) (c : Pos) (cs : List Pos),
        (moveTick r).players[i]? = some q →
        q.isBot = true → q.alive = true → q.snake = c :: cs →
        ((updateGame r).1.players[i]?) =
          some { q with direction :=
            chooseBotDir r.tileCount (moveTick r).foods c q.direction }) := by
  constructor
  · exact updateBotAI_map_proj r.tileCount (moveTick r).foods (moveTick r).players
  · intro i q c cs hq hbot halive hsnake
    show (updateBotAI r.tileCount (moveTick r).foods (moveTick r).players)[i]? = _
    unfold updateBotAI
    rw [List.getElem?_map, hq, Option.map_some']
    rw [if_pos ⟨hbot, halive⟩, hsnake]

theorem updateBotAI_after_movement_witness :
    ((updateGame roomC2).1.players[0]?) =
      some { bot0 with snake := [(⟨11, 10⟩ : Pos)], direction := (⟨0, 1⟩ : Dir) } := by
  have h := (updateBotAI_after_movement roomC2).2 0
    { bot0 with snake := [(⟨11, 10⟩ : Pos)] } ⟨11, 10⟩ [] rfl rfl rfl rfl
  rw [h]
  decide

/-! ### Collision with exactly one other alive entity (C4) -/

/-- C4: when a moving entity `p`'s new head (head plus heading) is in bounds,
misses its own tail, and lies on exactly one alive other entity `B` (the
collision filter returns exactly `[B]`) on a cell occurring exactly once in
`B`'s body, then `p` dies, the `player_died` event names `B` as the killer,
and `B`'s kill counter is incremented by exactly one. -/
theorem other_collision_kill (t : Int) (rand : Nat → Pos) (s : TickState) (i j : Nat)
    (p B : Player) (head : Pos) (rest : List Pos)
    (hp : s.players[i]? = some p)
    (halive : p.alive = true)
    (hdir : ¬(p.direction.dx = 0 ∧ p.direction.dy = 0))
    (hsnake : p.snake = head :: rest)
    (hwall : outOfBounds t { x := head.x + p.direction.dx, y := head.y + p.direction.dy } = false)
    (hself : ({ x := head.x + p.direction.dx, y := head.y + p.direction.dy } : Pos) ∉ p.snake.tail)
    (hhit : s.players.filter
        (hitsPlayer p.id { x := head.x + p.direction.dx, y := head.y + p.direction.dy }) = [B])
    (hcount : B.snake.countP
        (fun c => decide (c = ({ x := head.x + p.direction.dx, y := head.y + p.direction.dy } : Pos))) = 1)
    (hj : s.players[j]? = some B) (hij : j ≠ i) :
    ((movePlayerAt t rand s i).players[i]?) = some (killPlayer p)
    ∧ (killPlayer p).alive = false
    ∧ (movePlayerAt t rand s i).events =
        s.events ++ [GameEvent.playerDied p.id (some B.id)]
    ∧ (movePlayerAt t rand s i).players[j]? = some { B with kills := B.kills + 1 } := by
  have hilt : i < s.players.length := (List.getElem?_eq_some.mp hp).1
  have hBmem : B ∈ s.players.filter
      (hitsPlayer p.id { x := head.x + p.direction.dx, y := head.y + p.direction.dy }) := by
    rw [hhit]
    exact List.mem_cons_self B []
  have hBpred := (List.mem_filter.mp hBmem).2
  have hBid : B.id ≠ p.id := by
    have := (Bool.and_eq_true _ _).mp ((Bool.and_eq_true _ _).mp hBpred).1
    simpa using this.1
  have hBalive : B.alive = true := by
    have := (Bool.and_eq_true _ _).mp ((Bool.and_eq_true _ _).mp hBpred).1
    simpa using this.2
  have he : movePlayerAt t rand s i =
      { s with
        players := (s.players.map (bumpKills p.id
          { x := head.x + p.direction.dx, y := head.y + p.direction.dy })).set i (killPlayer p),
        events := s.events ++ [GameEvent.playerDied p.id (some B.id)] } := by
    unfold movePlayerAt
    rw [hp]
    dsimp only
    rw [if_neg (by simp [halive]), if_neg hdir, hsnake]
    dsimp only
    rw [if_neg (by simp [hwall]), if_neg (by rw [← hsnake]; exact hself)]
    rw [← hsnake, hhit]
    rfl
  refine ⟨?_, by simp [killPlayer], by rw [he], ?_⟩
  · rw [he]
    dsimp only
    rw [List.getElem?_set_self (by simpa using hilt)]
  · rw [he]
    dsimp only
    rw [List.getElem?_set_ne (Ne.symm hij)]
    rw [List.getElem?_map, hj]
    have hB2 : bumpKills p.id
        { x := head.x + p.direction.dx, y := head.y + p.direction.dy } B =
        { B with kills := B.kills + 1 } := by
      unfold bumpKills
      rw [if_pos ⟨hBid, hBalive⟩, hcount]
    rw [Option.map_some', hB2]

theorem other_collision_kill_witness :
    ((movePlayerAt 20 rand0 wS4 0).players[0]?) = some (killPlayer wA4)
    ∧ (killPlayer wA4).alive = false
    ∧ (movePlayerAt 20 rand0 wS4 0).events = [GameEvent.playerDied "A" (some "B")]
    ∧ (movePlayerAt 20 rand0 wS4 0).players[1]? = some { wB4 with kills := 1 } := by
  have := other_collision_kill 20 rand0 wS4 0 1 wA4 wB4 ⟨5, 5⟩ []
    rfl rfl (by decide) rfl (by decide) (by decide) (by decide) (by decide) rfl
    (by decide)
  exact this

/-! ### Identity and role preservation across a tick; rebalancing no-op (C10) -/

theorem idBotOf_bumpKills (pid : String) (h : Pos) (q : Player) :
    idBotOf (bumpKills pid h q) = idBotOf q := by
  unfold bumpKills idBotOf
  split <;> rfl

theorem map_idBot_set (l : List Player) (i : Nat) (v p : Player)
    (hp : l[i]? = some p) (hv : idBotOf v = idBotOf p) :
    (l.set i v).map idBotOf = l.map idBotOf := by
  apply List.ext_getElem?
  intro n
  rw [List.getElem?_map, List.getElem?_map]
  by_cases hn : n = i
  · subst hn
    rw [List.getElem?_set_self (List.getElem?_eq_some.mp hp).1, hp, Option.map_some',
      Option.map_some', hv]
  · rw [List.getElem?_set_ne (fun he => hn he.symm)]

theorem map_idBot_bump (l : List Player) (pid : String) (h : Pos) :
    (l.map (bumpKills pid h)).map idBotOf = l.map idBotOf := by
  rw [List.map_map]
  apply List.map_congr_left
  intro a _
  exact idBotOf_bumpKills pid h a

theorem map_idBot_bump_set (l : List Player) (pid : String) (h : Pos) (i : Nat) (p : Player)
    (hp : l[i]? = some p) :
    ((l.map (bumpKills pid h)).set i (killPlayer p)).map idBotOf = l.map idBotOf := by
  have hb : (l.map (bumpKills pid h))[i]? = some (bumpKills pid h p) := by
    rw [List.getElem?_map, hp, Option.map_some']
  rw [map_idBot_set _ i (killPlayer p) _ hb ((idBotOf_bumpKills pid h p).symm),
    map_idBot_bump]

theorem movePlayerAt_map_idBot (t : Int) (rand : Nat → Pos) (s : TickState) (i : Nat) :
    (movePlayerAt t rand s i).players.map idBotOf = s.players.map idBotOf := by
  unfold movePlayerAt
  cases hp : s.players[i]? with
  | none => rfl
  | some p =>
    dsimp only
    split
    · rfl
    split
    · rfl
    split
    · rfl
    split
    · exact map_idBot_set s.players i _ p hp rfl
    split
    · exact map_idBot_set s.players i _ p hp rfl
    split
    · split
      · exact map_idBot_set s.players i _ p hp rfl
      · exact map_idBot_set s.players i _ p hp rfl
    · exact map_idBot_bump_set s.players p.id _ i p hp

theorem moveLoop_map_idBot (t : Int) (rand : Nat → Pos) : ∀ (fuel i : Nat) (s : TickState),
    (moveLoop t rand fuel i s).players.map idBotOf = s.players.map idBotOf := by
  intro fuel
  induction fuel with
  | zero => intro i s; rfl
  | succ n ih =>
    intro i s
    show (moveLoop t rand n (i + 1) (movePlayerAt t rand s i)).players.map idBotOf = _
    rw [ih (i + 1) (movePlayerAt t rand s i), movePlayerAt_map_idBot]

theorem updateBotAI_map_idBot (t : Int) (fs : List Food) (ps : List Player) :
    (updateBotAI t fs ps).map idBotOf = ps.map idBotOf := by
  unfold updateBotAI
  rw [List.map_map]
  apply List.map_congr_left
  intro p _
  dsimp only [Function.comp]
  split
  · split <;> rfl
  · rfl

theorem updateGame_map_idBot (r : GameRoom) :
    (updateGame r).1.players.map idBotOf = r.players.map idBotOf := by
  show (updateBotAI r.tileCount (moveTick r).foods (moveTick r).players).map idBotOf = _
  rw [updateBotAI_map_idBot]
  exact moveLoop_map_idBot r.tileCount r.rand r.players.length 0 _

theorem human_bot_partition (ps : List Player) :
    (ps.filter (fun p => !p.isBot)).length + (ps.filter (fun p => p.isBot)).length
      = ps.length := by
  induction ps with
  | nil => rfl
  | cons p l ih =>
    cases hb : p.isBot <;> simp [List.filter_cons, hb] <;> omega

theorem manageBots_noop (r : GameRoom) (hlen : r.players.length = r.maxPlayers) :
    manageBots r = (r, []) := by
  have hpart := human_bot_partition r.players
  unfold manageBots
  dsimp only
  rw [if_neg (by omega), if_neg (by omega)]

/-- C10: no death branch of the tick removes (or adds) an entity — the tick
preserves the id-and-role sequence of the player list; rebalancing on a full
room (which a room with a human always is, dead bots counted) changes
nothing, so a dead bot is never removed nor replaced while a human remains;
and the broadcast snapshot contains every entity, dead bots included. -/
theorem dead_bots_persist (r : GameRoom) :
    ((updateGame r).1.players.map idBotOf = r.players.map idBotOf)
    ∧ (r.players.length = r.maxPlayers → manageBots r = (r, []))
    ∧ (∀ p ∈ r.players, toPlayerState p ∈ (getGameState r).players) :=
  ⟨updateGame_map_idBot r, manageBots_noop r,
    fun p hp => List.mem_map_of_mem toPlayerState hp⟩

theorem dead_bots_persist_witness :
    wRoomC10.players.length = wRoomC10.maxPlayers
    ∧ manageBots wRoomC10 = (wRoomC10, [])
    ∧ toPlayerState wDeadBot ∈ (getGameState wRoomC10).players :=
  ⟨rfl, (dead_bots_persist wRoomC10).2.1 rfl,
    (dead_bots_persist wRoomC10).2.2 wDeadBot (by decide)⟩

/-! ### A disconnect with no human present leaves bots alone in the room (C5) -/

/-- C5 failing input, evaluated: a `disconnect` of a socket that never joined,
delivered on the freshly created room, leaves the room with 20 bot entities,
zero humans, and no running tick loop — `manageBots` runs before the
human-count check and the `gameLoop` guard skips the cleanup, so bots persist
in a room with no humans (and every later join is rejected as full). -/
theorem disconnect_bot_persistence_bug :
    ((handleDisconnect (createRoom "default" rand0) "s").1.players.length = 20)
    ∧ (((handleDisconnect (createRoom "default" rand0) "s").1.players.filter
        (fun p => !p.isBot)).length = 0)
    ∧ ((handleDisconnect (createRoom "default" rand0) "s").1.gameLoop = false)
    ∧ ((handleDisconnect (createRoom "default" rand0) "s").1.players ≠ []) := by
  refine ⟨by decide, by decide, by decide, by decide⟩

/-! ### Injectivity of the decimal bot identifiers -/

theorem tdc_ne_nil (n : Nat) : tdc n ≠ [] := by
  rw [tdc]
  split
  · simp
  · simp

theorem digitChar_injOn : ∀ m, m < 10 → ∀ n, n < 10 →
    Nat.digitChar m = Nat.digitChar n → m = n := by decide

theorem tdc_injective : ∀ m n : Nat, tdc m = tdc n → m = n := by
  intro m
  induction m using Nat.strong_induction_on with
  | _ m ih =>
    intro n h
    have hs_eq : ∀ k, k < 10 → tdc k = [Nat.digitChar k] := fun k hk => by
      rw [tdc, dif_pos hk]
    have hb_eq : ∀ k, ¬ k < 10 → tdc k = tdc (k / 10) ++ [Nat.digitChar (k % 10)] :=
      fun k hk => by rw [tdc, dif_neg hk]
    by_cases hm : m < 10 <;> by_cases hn : n < 10
    · rw [hs_eq m hm, hs_eq n hn] at h
      exact digitChar_injOn m hm n hn (List.head_eq_of_cons_eq h)
    · rw [hs_eq m hm, hb_eq n hn] at h
      have hl := congrArg List.length h
      simp at hl
      exact absurd hl (tdc_ne_nil (n / 10))
    · rw [hb_eq m hm, hs_eq n hn] at h
      have hl := congrArg List.length h
      simp at hl
      exact absurd hl (tdc_ne_nil (m / 10))
    · rw [hb_eq m hm, hb_eq n hn] at h
      obtain ⟨h1, h2⟩ := List.append_inj' h (by simp)
      have hmod : m % 10 = n % 10 :=
        digitChar_injOn _ (Nat.mod_lt m (by omega)) _ (Nat.mod_lt n (by omega))
          (List.head_eq_of_cons_eq h2)
      have hdiv : m / 10 = n / 10 :=
        ih (m / 10) (Nat.div_lt_self (by omega) (by omega)) (n / 10) h1
      omega

theorem toDigitsCore_eq_tdc : ∀ (fuel n : Nat) (ds : List Char), n < fuel →
    Nat.toDigitsCore 10 fuel n ds = tdc n ++ ds := by
  intro fuel
  induction fuel with
  | zero => intro n ds h; omega
  | succ f ih =>
    intro n ds h
    rw [Nat.toDigitsCore]
    split
    · next h0 =>
      have hn10 : n < 10 := by omega
      rw [tdc, dif_pos hn10, Nat.mod_eq_of_lt hn10]
      rfl
    · next h0 =>
      have hge : ¬ n < 10 := by omega
      rw [show tdc n = tdc (n / 10) ++ [Nat.digitChar (n % 10)] from by
        rw [tdc, dif_neg hge]]
      rw [ih (n / 10) _ (by omega)]
      simp

theorem repr_eq_tdc (n : Nat) : Nat.repr n = (tdc n).asString := by
  show (Nat.toDigits 10 n).asString = _
  rw [Nat.toDigits, toDigitsCore_eq_tdc (n + 1) n [] (by omega), List.append_nil]

theorem repr_injective (m n : Nat) (h : Nat.repr m = Nat.repr n) : m = n := by
  rw [repr_eq_tdc, repr_eq_tdc] at h
  exact tdc_injective m n (congrArg String.data h)

theorem botId_data (m : Nat) :
    (botId m).data = 'b' :: 'o' :: 't' :: '_' :: (Nat.repr m).data := by
  show ("bot_" ++ Nat.repr m).data = _
  rw [String.data_append, show ("bot_" : String).data = ['b', 'o', 't', '_'] from by decide]
  rfl

theorem botId_injective (m n : Nat) (h : botId m = botId n) : m = n := by
  apply repr_injective
  have h2 := congrArg String.data h
  rw [botId_data, botId_data] at h2
  apply String.ext
  simpa using h2

theorem ne_botId_of_head {s : String} {c : Char} (hc : s.data.head? = some c)
    (hb : c ≠ 'b') (m : Nat) : s ≠ botId m := by
  intro h
  apply hb
  have h3 : (botId m).data.head? = some c := h ▸ hc
  rw [botId_data, List.head?_cons] at h3
  exact (Option.some.inj h3).symm

/-! ### Bot spawning and rebalancing counts (C3) -/

theorem mapSet_append (ps : List Player) (key : String) (p : Player)
    (h : ∀ q ∈ ps, q.id ≠ key) : mapSet ps key p = ps ++ [p] := by
  unfold mapSet
  rw [if_neg]
  intro hany
  obtain ⟨q, hq, hdec⟩ := List.any_eq_true.mp hany
  exact h q hq (of_decide_eq_true hdec)

theorem spawnBot_props (r : GameRoom) (hfresh : BotFresh r) :
    ∃ b : Player,
      (spawnBot r).1.players = r.players ++ [b]
      ∧ b.isBot = true
      ∧ b.id = botId (r.botCounter + 1)
      ∧ (spawnBot r).1.botCounter = r.botCounter + 1
      ∧ (spawnBot r).1.gameLoop = r.gameLoop
      ∧ (spawnBot r).1.maxPlayers = r.maxPlayers
      ∧ (spawnBot r).1.tileCount = r.tileCount
      ∧ BotFresh (spawnBot r).1 := by
  have hpl : (spawnBot r).1.players = r.players ++
      [{ id := botId (r.botCounter + 1), name := "Bot " ++ Nat.repr (r.botCounter + 1),
         snake := [r.rand r.rk], direction := { dx := 1, dy := 0 },
         color := COLORS.getD (r.players.length % COLORS.length) "",
         score := 0, kills := 0, alive := true, isBot := true, spectating := false }] := by
    show mapSet r.players (botId (r.botCounter + 1)) _ = _
    apply mapSet_append
    intro q hq hkey
    have := hfresh q hq (r.botCounter + 1) hkey
    omega
  refine ⟨_, hpl, rfl, rfl, rfl, rfl, rfl, rfl, ?_⟩
  intro p hp m hid
  rw [hpl] at hp
  rcases List.mem_append.mp hp with hmem | hmem
  · have := hfresh p hmem m hid
    show m ≤ r.botCounter + 1
    omega
  · have hpb := List.mem_singleton.mp hmem
    rw [hpb] at hid
    have := botId_injective _ _ hid.symm
    show m ≤ r.botCounter + 1
    omega

theorem spawnBots_spec : ∀ (k : Nat) (r : GameRoom), BotFresh r →
    ∃ nb : List Player,
      (spawnBots r k).1.players = r.players ++ nb
      ∧ nb.length = k
      ∧ (∀ b ∈ nb, b.isBot = true ∧ ∃ m, b.id = botId m)
      ∧ (spawnBots r k).1.botCounter = r.botCounter + k
      ∧ (spawnBots r k).1.gameLoop = r.gameLoop
      ∧ (spawnBots r k).1.maxPlayers = r.maxPlayers
      ∧ (spawnBots r k).1.tileCount = r.tileCount
      ∧ BotFresh (spawnBots r k).1 := by
  intro k
  induction k with
  | zero =>
    intro r hfresh
    exact ⟨[], by simp [spawnBots], rfl, by simp, rfl, rfl, rfl, rfl, hfresh⟩
  | succ n ih =>
    intro r hfresh
    obtain ⟨b, hpl, hbot, hbid, hc, hgl, hmax, htc, hfresh1⟩ := spawnBot_props r hfresh
    obtain ⟨nb, hpl2, hlen2, hall2, hc2, hgl2, hmax2, htc2, hfresh2⟩ :=
      ih (spawnBot r).1 hfresh1
    refine ⟨b :: nb, ?_, by simp [hlen2], ?_, ?_, ?_, ?_, ?_, ?_⟩
    · show (spawnBots (spawnBot r).1 n).1.players = _
      rw [hpl2, hpl, List.append_assoc]
      rfl
    · intro q hq
      rcases List.mem_cons.mp hq with hq1 | hq1
      · exact hq1 ▸ ⟨hbot, r.botCounter + 1, hbid⟩
      · exact hall2 q hq1
    · show (spawnBots (spawnBot r).1 n).1.botCounter = _
      rw [hc2, hc]
      omega
    · show (spawnBots (spawnBot r).1 n).1.gameLoop = _
      rw [hgl2, hgl]
    · show (spawnBots (spawnBot r).1 n).1.maxPlayers = _
      rw [hmax2, hmax]
    · show (spawnBots (spawnBot r).1 n).1.tileCount = _
      rw [htc2, htc]
    · exact hfresh2

theorem manageBots_count (r : GameRoom)
    (hlen : r.players.length ≤ r.maxPlayers) (hfresh : BotFresh r) :
    botsCnt (manageBots r).1 = r.maxPlayers - humansCnt r
    ∧ humansCnt (manageBots r).1 = humansCnt r
    ∧ (manageBots r).1.players.length = r.maxPlayers
    ∧ (manageBots r).1.gameLoop = r.gameLoop
    ∧ (manageBots r).1.maxPlayers = r.maxPlayers
    ∧ (manageBots r).1.tileCount = r.tileCount
    ∧ BotFresh (manageBots r).1
    ∧ (∀ p ∈ (manageBots r).1.players,
        p ∈ r.players ∨ (p.isBot = true ∧ ∃ m, p.id = botId m)) := by
  have hpart := human_bot_partition r.players
  have hhle : (r.players.filter (fun p => !p.isBot)).length ≤ r.players.length :=
    List.length_filter_le _ _
  have hhum : humansCnt r = (r.players.filter (fun p => !p.isBot)).length := rfl
  have hbots : botsCnt r = (r.players.filter (fun p => p.isBot)).length := rfl
  by_cases hlt : (r.players.length : Int) < (r.maxPlayers : Int)
  · have hk : (min ((r.maxPlayers : Int) - (r.players.filter (fun p => !p.isBot)).length)
        ((r.maxPlayers : Int) - r.players.length)).toNat =
        r.maxPlayers - r.players.length := by
      omega
    have hmb : manageBots r = spawnBots r (r.maxPlayers - r.players.length) := by
      unfold manageBots
      dsimp only
      rw [if_neg (by omega), if_pos hlt, hk]
    obtain ⟨nb, hpl, hlen2, hall, hc, hgl, hmax, htc, hfresh'⟩ :=
      spawnBots_spec (r.maxPlayers - r.players.length) r hfresh
    have hbotsnb : nb.filter (fun p => p.isBot) = nb :=
      List.filter_eq_self.mpr (fun b hb => by simp [(hall b hb).1])
    have hhumnb : nb.filter (fun p => !p.isBot) = [] := by
      rw [List.filter_eq_nil_iff]
      intro b hb
      simp [(hall b hb).1]
    rw [hmb]
    refine ⟨?_, ?_, ?_, hgl, hmax, htc, hfresh', ?_⟩
    · show ((spawnBots r _).1.players.filter (fun p => p.isBot)).length = _
      rw [hpl, List.filter_append, List.length_append, hbotsnb]
      omega
    · show ((spawnBots r _).1.players.filter (fun p => !p.isBot)).length = _
      rw [hpl, List.filter_append, List.length_append, hhumnb]
      rfl
    · rw [hpl, List.length_append]
      omega
    · intro p hp
      rw [hpl] at hp
      rcases List.mem_append.mp hp with hmem | hmem
      · exact Or.inl hmem
      · exact Or.inr ⟨(hall p hmem).1, (hall p hmem).2⟩
  · have hmb : manageBots r = (r, []) := by
      unfold manageBots
      dsimp only
      rw [if_neg (by omega), if_neg hlt]
    rw [hmb]
    refine ⟨?_, rfl, by show r.players.length = r.maxPlayers; omega, rfl, rfl, rfl,
      hfresh, fun p hp => Or.inl hp⟩
    show ((r.players.filter (fun p => p.isBot)).length) = _
    omega

/-- C3: immediately after the `manageBots` rebalancing call (triggered by any
join or disconnect), the number of bot entities equals `maxPlayers` minus the
number of human entities, provided the room held at most `maxPlayers`
entities before the call (and the bot-naming counter is well formed, as it
always is: no existing player carries a synthetic bot id above the counter). -/
theorem manageBots_bot_count (r : GameRoom)
    (hlen : r.players.length ≤ r.maxPlayers) (hfresh : BotFresh r) :
    botsCnt (manageBots r).1 = r.maxPlayers - humansCnt r :=
  (manageBots_count r hlen hfresh).1

theorem manageBots_bot_count_witness :
    wRoomC3.players.length ≤ wRoomC3.maxPlayers
    ∧ BotFresh wRoomC3
    ∧ botsCnt (manageBots wRoomC3).1 = wRoomC3.maxPlayers - humansCnt wRoomC3 := by
  have hfr : BotFresh wRoomC3 := by
    intro p hp m hid
    have hpa : p = wAlice := List.mem_singleton.mp hp
    rw [hpa] at hid
    exact absurd hid (ne_botId_of_head (s := "alice") rfl (by decide) m)
  exact ⟨by decide, hfr, manageBots_bot_count wRoomC3 (by decide) hfr⟩

/-! ### Sequential event-model invariant (C9) -/

theorem inv_createRoom (id : String) (rand : Nat → Pos) : Inv (createRoom id rand) := by
  refine ⟨rfl, Nat.zero_le 1, Nat.zero_le 20, by simp [humansCnt, createRoom], ?_, ?_, ?_⟩
  · show false = true ↔ 1 ≤ humansCnt (createRoom id rand)
    simp [humansCnt, createRoom]
  · intro p hp
    exact absurd hp (by simp [createRoom])
  · intro p hp
    exact absurd hp (by simp [createRoom])

theorem counts_of_map_idBot {ps qs : List Player} (h : ps.map idBotOf = qs.map idBotOf) :
    (ps.filter (fun p => !p.isBot)).length = (qs.filter (fun p => !p.isBot)).length
    ∧ (ps.filter (fun p => p.isBot)).length = (qs.filter (fun p => p.isBot)).length
    ∧ ps.length = qs.length := by
  refine ⟨?_, ?_, ?_⟩
  · rw [← List.countP_eq_length_filter, ← List.countP_eq_length_filter]
    have e1 : ps.countP (fun p => !p.isBot) =
        (ps.map idBotOf).countP (fun x : String × Bool => !x.2) :=
      (List.countP_map (fun x : String × Bool => !x.2) idBotOf ps).symm
    have e2 : qs.countP (fun p => !p.isBot) =
        (qs.map idBotOf).countP (fun x : String × Bool => !x.2) :=
      (List.countP_map (fun x : String × Bool => !x.2) idBotOf qs).symm
    rw [e1, e2, h]
  · rw [← List.countP_eq_length_filter, ← List.countP_eq_length_filter]
    have e1 : ps.countP (fun p => p.isBot) =
        (ps.map idBotOf).countP (fun x : String × Bool => x.2) :=
      (List.countP_map (fun x : String × Bool => x.2) idBotOf ps).symm
    have e2 : qs.countP (fun p => p.isBot) =
        (qs.map idBotOf).countP (fun x : String × Bool => x.2) :=
      (List.countP_map (fun x : String × Bool => x.2) idBotOf qs).symm
    rw [e1, e2, h]
  · have e1 : ps.length = (ps.map idBotOf).length := (List.length_map ps idBotOf).symm
    rw [e1, h, List.length_map]

theorem mem_transfer_of_map_idBot {ps qs : List Player}
    (h : ps.map idBotOf = qs.map idBotOf) :
    ∀ q ∈ qs, ∃ p ∈ ps, p.id = q.id ∧ p.isBot = q.isBot := by
  intro q hq
  have hmem : idBotOf q ∈ qs.map idBotOf := List.mem_map_of_mem idBotOf hq
  rw [← h] at hmem
  obtain ⟨p, hp, hpe⟩ := List.mem_map.mp hmem
  exact ⟨p, hp, congrArg Prod.fst hpe, congrArg Prod.snd hpe⟩

theorem all_bots_of_humansCnt_zero {r : GameRoom} (h : humansCnt r = 0) :
    ∀ p ∈ r.players, p.isBot = true := by
  intro p hp
  by_contra hb
  have hb' : p.isBot = false := by
    cases hbb : p.isBot with
    | false => rfl
    | true => exact absurd hbb hb
  have hmem : p ∈ r.players.filter (fun q => !q.isBot) :=
    List.mem_filter.mpr ⟨hp, by simp [hb']⟩
  have hpos : 0 < (r.players.filter (fun q => !q.isBot)).length :=
    List.length_pos.mpr (List.ne_nil_of_mem hmem)
  unfold humansCnt at h
  omega

theorem setDirFirst_map_idBot (ps : List Player) (sid : String) (d : Dir) :
    (setDirFirst ps sid d).map idBotOf = ps.map idBotOf := by
  induction ps with
  | nil => rfl
  | cons p rest ih =>
    unfold setDirFirst
    by_cases h : p.id = sid
    · rw [if_pos h]
      rfl
    · rw [if_neg h]
      show idBotOf p :: (setDirFirst rest sid d).map idBotOf = _
      rw [ih]
      rfl

/-- Transfer of the invariant along a step that preserves the id-and-role
sequence, the loop flag, the capacity, and the counter. -/
theorem inv_transfer {r r' : GameRoom}
    (hmap : r'.players.map idBotOf = r.players.map idBotOf)
    (hloop : r'.gameLoop = r.gameLoop)
    (hmax : r'.maxPlayers = r.maxPlayers)
    (hcounter : r'.botCounter = r.botCounter)
    (hinv : Inv r) : Inv r' := by
  obtain ⟨h1, h2, h3, h4, h5, h6, h7⟩ := hinv
  obtain ⟨hh, hb, hl⟩ := counts_of_map_idBot hmap
  unfold humansCnt at h2 h4 h5
  refine ⟨by rw [hmax, h1], ?_, by omega, ?_, ?_, ?_, ?_⟩
  · show (r'.players.filter (fun p => !p.isBot)).length ≤ 1
    omega
  · intro hge
    unfold humansCnt at hge
    have h20 := h4 (by omega)
    omega
  · rw [hloop, h5]
    unfold humansCnt
    constructor <;> intro <;> omega
  · intro p hp hbot
    obtain ⟨q, hq, hid, hisbot⟩ := mem_transfer_of_map_idBot hmap.symm p hp
    obtain ⟨m, hm⟩ := h6 q hq (by rw [hisbot, hbot])
    exact ⟨m, by rw [← hid]; exact hm⟩
  · intro p hp m hm
    obtain ⟨q, hq, hid, hisbot⟩ := mem_transfer_of_map_idBot hmap.symm p hp
    rw [hcounter]
    exact h7 q hq m (by rw [hid]; exact hm)

theorem joinGame_reject (r : GameRoom) (s n : String) (h : r.players.length ≥ 20) :
    joinGame r s n = (r, [GameEvent.roomFull]) := by
  unfold joinGame
  rw [if_pos h]

theorem joinGame_eq (r : GameRoom) (s n : String) (h : ¬ r.players.length ≥ 20) :
    joinGame r s n =
      (if (manageBots (joinStage1 r s n)).1.gameLoop then (manageBots (joinStage1 r s n)).1
       else { (manageBots (joinStage1 r s n)).1 with gameLoop := true },
       [GameEvent.gameJoined s, GameEvent.playerJoined s] ++ (manageBots (joinStage1 r s n)).2) := by
  unfold joinGame
  rw [if_neg h]

theorem joinGame_proj (r : GameRoom) (s n : String) (h : ¬ r.players.length ≥ 20) :
    (joinGame r s n).1.players = (manageBots (joinStage1 r s n)).1.players
    ∧ (joinGame r s n).1.maxPlayers = (manageBots (joinStage1 r s n)).1.maxPlayers
    ∧ (joinGame r s n).1.botCounter = (manageBots (joinStage1 r s n)).1.botCounter
    ∧ (joinGame r s n).1.gameLoop = true := by
  rw [joinGame_eq r s n h]
  dsimp only
  by_cases hgl : (manageBots (joinStage1 r s n)).1.gameLoop = true
  · rw [if_pos hgl]
    exact ⟨rfl, rfl, rfl, hgl⟩
  · rw [if_neg hgl]
    exact ⟨rfl, rfl, rfl, rfl⟩

theorem joinStage1_players (r : GameRoom) (s n : String)
    (hids : ∀ q ∈ r.players, q.id ≠ s) :
    (joinStage1 r s n).players = r.players ++ [mkHumanPlayer r s n] := by
  show mapSet r.players s (mkHumanPlayer r s n) = _
  exact mapSet_append r.players s _ hids

theorem joinGame_success (r : GameRoom) (s n : String)
    (hfull : ¬ r.players.length ≥ 20)
    (hids : ∀ q ∈ r.players, q.id ≠ s)
    (hs : ∀ m, s ≠ botId m)
    (hshaped : BotShaped r) (hfresh : BotFresh r)
    (hmax : r.maxPlayers = 20) :
    humansCnt (joinGame r s n).1 = humansCnt r + 1
    ∧ botsCnt (joinGame r s n).1 = r.maxPlayers - (humansCnt r + 1)
    ∧ (joinGame r s n).1.players.length = r.maxPlayers
    ∧ (joinGame r s n).1.gameLoop = true
    ∧ (joinGame r s n).1.maxPlayers = r.maxPlayers
    ∧ BotShaped (joinGame r s n).1
    ∧ BotFresh (joinGame r s n).1 := by
  obtain ⟨hp1, hp2, hp3, hp4⟩ := joinGame_proj r s n hfull
  have hst1p := joinStage1_players r s n hids
  have hst1max : (joinStage1 r s n).maxPlayers = r.maxPlayers := rfl
  have hst1len : (joinStage1 r s n).players.length = r.players.length + 1 := by
    rw [hst1p]
    simp
  have hst1hum : humansCnt (joinStage1 r s n) = humansCnt r + 1 := by
    unfold humansCnt
    rw [hst1p, List.filter_append]
    simp [mkHumanPlayer]
  have hst1fresh : BotFresh (joinStage1 r s n) := by
    intro p hp m hm
    show m ≤ r.botCounter
    rw [hst1p] at hp
    rcases List.mem_append.mp hp with hq | hq
    · exact hfresh p hq m hm
    · rw [List.mem_singleton.mp hq] at hm
      exact absurd hm (hs m)
  have hst1shaped : BotShaped (joinStage1 r s n) := by
    intro p hp hbot
    rw [hst1p] at hp
    rcases List.mem_append.mp hp with hq | hq
    · exact hshaped p hq hbot
    · rw [List.mem_singleton.mp hq] at hbot
      exact absurd hbot (by simp [mkHumanPlayer])
  obtain ⟨hb2, hh2, hl2, hg2, hm2, ht2, hf2, hmem2⟩ :=
    manageBots_count (joinStage1 r s n) (by rw [hst1len, hst1max]; omega) hst1fresh
  have hpe : humansCnt (joinGame r s n).1 = humansCnt (manageBots (joinStage1 r s n)).1 := by
    unfold humansCnt
    rw [hp1]
  have hpb : botsCnt (joinGame r s n).1 = botsCnt (manageBots (joinStage1 r s n)).1 := by
    unfold botsCnt
    rw [hp1]
  refine ⟨?_, ?_, ?_, hp4, ?_, ?_, ?_⟩
  · rw [hpe, hh2, hst1hum]
  · rw [hpb, hb2, hst1max, hst1hum]
  · rw [hp1, hl2, hst1max]
  · rw [hp2, hm2, hst1max]
  · intro p hp hbot
    rw [hp1] at hp
    rcases hmem2 p hp with hq | hq
    · exact hst1shaped p hq hbot
    · exact hq.2
  · intro p hp m hm
    show m ≤ (joinGame r s n).1.botCounter
    rw [hp3]
    rw [hp1] at hp
    exact hf2 p hp m hm

theorem inv_join (r : GameRoom) (s n : String) (hinv : Inv r) (hs : ∀ m, s ≠ botId m) :
    Inv (joinGame r s n).1 := by
  obtain ⟨h1, h2, h3, h4, h5, h6, h7⟩ := hinv
  by_cases hfull : r.players.length ≥ 20
  · rw [joinGame_reject r s n hfull]
    exact ⟨h1, h2, h3, h4, h5, h6, h7⟩
  · have hhum0 : humansCnt r = 0 := by
      by_contra h0
      have := h4 (by omega)
      omega
    have hids : ∀ q ∈ r.players, q.id ≠ s := by
      intro q hq heq
      obtain ⟨m, hm⟩ := h6 q hq (all_bots_of_humansCnt_zero hhum0 q hq)
      exact hs m (heq ▸ hm)
    obtain ⟨c1, c2, c3, c4, c5, c6, c7⟩ :=
      joinGame_success r s n hfull hids hs h6 h7 h1
    refine ⟨by rw [c5, h1], by omega, by omega, fun _ => by omega, ?_, c6, c7⟩
    rw [c4, c1, hhum0]
    simp

theorem inv_move (r : GameRoom) (s : String) (d : Dir) (hinv : Inv r) :
    Inv (handlePlayerMove r s d) := by
  cases hf : findById r.players s with
  | none =>
    have he : handlePlayerMove r s d = r := by
      unfold handlePlayerMove
      rw [hf]
    rw [he]
    exact hinv
  | some p =>
    rw [handlePlayerMove_of_found r s d p hf]
    split
    · exact hinv
    split
    · exact hinv
    · exact inv_transfer (setDirFirst_map_idBot r.players s d) rfl rfl rfl hinv

theorem inv_tick (r : GameRoom) (hinv : Inv r) : Inv (stepAct r Act.tick) := by
  show Inv (if r.gameLoop then (updateGame r).1 else r)
  split
  · exact inv_transfer (updateGame_map_idBot r) rfl rfl rfl hinv
  · exact hinv

theorem inv_disconnect (r : GameRoom) (s : String) (hinv : Inv r)
    (hs : ∀ m, s ≠ botId m) : Inv (handleDisconnect r s).1 := by
  obtain ⟨h1, h2, h3, h4, h5, h6, h7⟩ := hinv
  have hsub : (disconnectStage1 r s).players.Sublist r.players :=
    List.filter_sublist r.players
  have hhum1 : humansCnt (disconnectStage1 r s) ≤ humansCnt r := by
    show ((disconnectStage1 r s).players.filter (fun p => !p.isBot)).length ≤
      (r.players.filter (fun p => !p.isBot)).length
    exact (hsub.filter (fun p => !p.isBot)).length_le
  have hlen1 : (disconnectStage1 r s).players.length ≤ r.players.length :=
    hsub.length_le
  have hfresh1 : BotFresh (disconnectStage1 r s) := by
    intro p hp m hm
    exact h7 p (List.mem_of_mem_filter hp) m hm
  have hshaped1 : BotShaped (disconnectStage1 r s) := by
    intro p hp hbot
    exact h6 p (List.mem_of_mem_filter hp) hbot
  obtain ⟨hb2, hh2, hl2, hg2, hm2, ht2, hf2, hmem2⟩ :=
    manageBots_count (disconnectStage1 r s)
      (by show (disconnectStage1 r s).players.length ≤ r.maxPlayers; omega)
      hfresh1
  have hgr : (disconnectStage1 r s).gameLoop = r.gameLoop := rfl
  have hmr : (disconnectStage1 r s).maxPlayers = r.maxPlayers := rfl
  unfold handleDisconnect
  dsimp only
  split
  · next hcond =>
    show Inv { (manageBots (disconnectStage1 r s)).1 with gameLoop := false, players := [] }
    refine ⟨?_, ?_, ?_, ?_, ?_, ?_, ?_⟩
    · show (manageBots (disconnectStage1 r s)).1.maxPlayers = 20
      rw [hm2, hmr]
      exact h1
    · show humansCnt _ ≤ 1
      unfold humansCnt
      simp
    · show (0 : Nat) ≤ 20
      omega
    · intro hge
      unfold humansCnt at hge
      simp at hge
    · show false = true ↔ _
      unfold humansCnt
      simp
    · intro p hp
      exact absurd hp (by simp)
    · intro p hp
      exact absurd hp (by simp)
  · next hcond =>
    show Inv (manageBots (disconnectStage1 r s)).1
    rw [Classical.not_and_iff_or_not_not] at hcond
    have hhc : humansCnt (manageBots (disconnectStage1 r s)).1 ≤ humansCnt r := by
      rw [hh2]
      exact hhum1
    refine ⟨?_, by omega, ?_, ?_, ?_, ?_, ?_⟩
    · rw [hm2, hmr]
      exact h1
    · rw [hl2, hmr]
      omega
    · intro _
      rw [hl2, hmr]
      exact h1
    · constructor
      · intro hgt
        rcases hcond with hc | hc
        · have : ((manageBots (disconnectStage1 r s)).1.players.filter
              (fun p => !p.isBot)).length ≠ 0 := hc
          show 1 ≤ humansCnt (manageBots (disconnectStage1 r s)).1
          unfold humansCnt
          omega
        · exact absurd hgt hc
      · intro hge
        rw [hg2, hgr]
        apply h5.mpr
        have h1' : 1 ≤ humansCnt (disconnectStage1 r s) := by
          rw [← hh2]
          omega
        omega
    · intro p hp hbot
      rcases hmem2 p hp with hq | hq
      · exact hshaped1 p hq hbot
      · exact hq.2
    · exact hf2

theorem inv_step (r : GameRoom) (a : Act) (hinv : Inv r) (hok : ActOk a) :
    Inv (stepAct r a) := by
  cases a with
  | join s n => exact inv_join r s n hinv hok
  | move s d => exact inv_move r s d hinv
  | disconnect s => exact inv_disconnect r s hinv hok
  | tick => exact inv_tick r hinv

theorem inv_runActs : ∀ (acts : List Act) (r : GameRoom), Inv r →
    (∀ a ∈ acts, ActOk a) → Inv (runActs r acts) := by
  intro acts
  induction acts with
  | nil => intro r h _; exact h
  | cons a rest ih =>
    intro r h hok
    show Inv (runActs (stepAct r a) rest)
    exact ih (stepAct r a) (inv_step r a h (hok a (List.mem_cons_self a rest)))
      (fun b hb => hok b (List.mem_cons_of_mem a hb))

/-- C9: under the sequential event model started from the freshly created
default room, with opaque (never bot-shaped) socket identifiers: the room
never holds more than one human entity; while a human entity is present,
every `join_game` is rejected with `room_full` and creates no entity (the
capacity check counts bots as well as humans); and the first human's join —
a join landing on the empty room — leaves exactly `maxPlayers = 20`
entities after its rebalancing: 1 human plus 19 bots. -/
theorem join_capacity_one_human (rand : Nat → Pos) (acts : List Act)
    (hok : ∀ a ∈ acts, ActOk a) :
    humansCnt (runActs (createRoom "default" rand) acts) ≤ 1
    ∧ (∀ s n, 1 ≤ humansCnt (runActs (createRoom "default" rand) acts) →
        joinGame (runActs (createRoom "default" rand) acts) s n =
          (runActs (createRoom "default" rand) acts, [GameEvent.roomFull]))
    ∧ (∀ s n, (∀ m, s ≠ botId m) →
        (runActs (createRoom "default" rand) acts).players = [] →
        (joinGame (runActs (createRoom "default" rand) acts) s n).1.players.length = 20
        ∧ humansCnt (joinGame (runActs (createRoom "default" rand) acts) s n).1 = 1
        ∧ botsCnt (joinGame (runActs (createRoom "default" rand) acts) s n).1 = 19) := by
  obtain ⟨h1, h2, h3, h4, h5, h6, h7⟩ :=
    inv_runActs acts (createRoom "default" rand) (inv_createRoom "default" rand) hok
  refine ⟨h2, ?_, ?_⟩
  · intro s n hge
    exact joinGame_reject _ s n (by rw [h4 hge])
  · intro s n hs hempty
    have hfull : ¬ (runActs (createRoom "default" rand) acts).players.length ≥ 20 := by
      rw [hempty]
      simp
    have hids : ∀ q ∈ (runActs (createRoom "default" rand) acts).players, q.id ≠ s := by
      rw [hempty]
      intro q hq
      exact absurd hq (List.not_mem_nil q)
    have hhum0 : humansCnt (runActs (createRoom "default" rand) acts) = 0 := by
      unfold humansCnt
      rw [hempty]
      rfl
    obtain ⟨c1, c2, c3, c4, c5, c6, c7⟩ :=
      joinGame_success _ s n hfull hids hs h6 h7 h1
    exact ⟨by rw [c3, h1], by rw [c1, hhum0], by rw [c2, h1, hhum0]⟩

theorem join_capacity_one_human_witness :
    humansCnt (runActs (createRoom "default" rand0) [Act.join "alice" "Alice"]) ≤ 1
    ∧ joinGame (runActs (createRoom "default" rand0) [Act.join "alice" "Alice"]) "bob" "Bob" =
        (runActs (createRoom "default" rand0) [Act.join "alice" "Alice"],
         [GameEvent.roomFull]) := by
  have hok : ∀ a ∈ [Act.join "alice" "Alice"], ActOk a := by
    intro a ha
    rw [List.mem_singleton.mp ha]
    exact fun m => ne_botId_of_head (s := "alice") rfl (by decide) m
  have h := join_capacity_one_human rand0 [Act.join "alice" "Alice"] hok
  exact ⟨h.1, h.2.1 "bob" "Bob" (by decide)⟩

end WorldConquest
